import Mathlib

/-!
Verification of the proxt-TV stream-relay server.

The development shallowly embeds the request handlers of `src/proxy.js` and
the richer handler variants in `src/unnamed/part_000`:

* the HLS playlist rewrite applied to `.m3u8` bodies
  (`data.replace(/^(?!#)(.+)$/gm, line => ...)`),
* the `/proxy` handler head (missing/invalid `url` handling, upstream
  request header construction with the `edgenextcdn.net` special case,
  and the buffer-and-rewrite vs. stream decision),
* the `/epg` handler (channel filtering and JSON serialization).

JavaScript strings are modelled as Lean `String`/`List Char`; the WHATWG
`URL` class (`new URL(input)` and `new URL(input, base)`) is modelled by an
executable parser/resolver covering the constructs the handlers exercise
(http/https-style authority URLs, other schemes as scheme-plus-plain-path,
dot-segment removal, percent-encoding of path/query/fragment on parse).
`encodeURIComponent` is modelled exactly (unreserved set plus UTF-8
percent-encoding with uppercase hex digits).
-/

namespace ProxTV

/-! ## Small character and list utilities -/

/-- `listStarts pat l` is true when `pat` is an initial run of `l`
(the `List Char` form of JavaScript `String.prototype.startsWith`). -/
def listStarts : List Char → List Char → Bool
  | [], _ => true
  | _ :: _, [] => false
  | p :: ps, c :: cs => p == c && listStarts ps cs

/-- `strStarts s pat`: does string `s` start with `pat`?
Models JavaScript `s.startsWith(pat)`. -/
def strStarts (s pat : String) : Bool :=
  listStarts pat.toList s.toList

/-- `strEnds s pat`: does string `s` end with `pat`?
Models JavaScript `s.endsWith(pat)`. -/
def strEnds (s pat : String) : Bool :=
  listStarts pat.toList.reverse s.toList.reverse

/-- Substring test: models JavaScript `s.includes(pat)`. -/
def strIncludes (s pat : String) : Bool :=
  decide (pat.toList <:+: s.toList)

/-- The whitespace class of JavaScript `String.prototype.trim`
(ASCII whitespace, NBSP, BOM and the Unicode space separators). -/
def jsWs (c : Char) : Bool :=
  c == ' ' || c == '\t' || c == '\n' || c == '\r' ||
  c == (Char.ofNat 11) || c == (Char.ofNat 12) || c == (Char.ofNat 0xa0) ||
  c == (Char.ofNat 0xfeff) || c == (Char.ofNat 0x1680) ||
  (0x2000 ≤ c.toNat && c.toNat ≤ 0x200a) ||
  c == (Char.ofNat 0x2028) || c == (Char.ofNat 0x2029) ||
  c == (Char.ofNat 0x202f) || c == (Char.ofNat 0x205f) ||
  c == (Char.ofNat 0x3000)

/-- Trim JavaScript whitespace from both ends of a character list. -/
def trimL (l : List Char) : List Char :=
  ((l.dropWhile jsWs).reverse.dropWhile jsWs).reverse

/-- Models JavaScript `s.trim()`. -/
def jsTrim (s : String) : String :=
  String.mk (trimL s.toList)

/-! ## encodeURIComponent -/

/-- The characters `encodeURIComponent` leaves unescaped:
ASCII letters, ASCII digits, and `- _ . ! ~ * ' ( )`. -/
def isUnreservedURI (c : Char) : Bool :=
  (('A' ≤ c && c ≤ 'Z') || ('a' ≤ c && c ≤ 'z') || ('0' ≤ c && c ≤ '9')) ||
  c == '-' || c == '_' || c == '.' || c == '!' || c == '~' || c == '*' ||
  c == (Char.ofNat 39) || c == '(' || c == ')'

/-- Uppercase hexadecimal digit (used by percent-encoding). -/
def hexDigitU : Nat → Char
  | 0 => '0' | 1 => '1' | 2 => '2' | 3 => '3'
  | 4 => '4' | 5 => '5' | 6 => '6' | 7 => '7'
  | 8 => '8' | 9 => '9' | 10 => 'A' | 11 => 'B'
  | 12 => 'C' | 13 => 'D' | 14 => 'E' | _ => 'F'

/-- The UTF-8 byte sequence of a character. -/
def utf8Bytes (c : Char) : List Nat :=
  let n := c.toNat
  if n < 0x80 then [n]
  else if n < 0x800 then [0xc0 + n / 64, 0x80 + n % 64]
  else if n < 0x10000 then
    [0xe0 + n / 4096, 0x80 + (n / 64) % 64, 0x80 + n % 64]
  else
    [0xf0 + n / 262144, 0x80 + (n / 4096) % 64, 0x80 + (n / 64) % 64,
     0x80 + n % 64]

/-- Percent-encode one byte, uppercase hex. -/
def pctByte (b : Nat) : List Char :=
  ['%', hexDigitU (b / 16), hexDigitU (b % 16)]

/-- Percent-encode every character of `l` that satisfies `p`
(UTF-8 bytes, uppercase hex); other characters pass through. -/
def pctEncodeWith (p : Char → Bool) : List Char → List Char
  | [] => []
  | c :: cs =>
    (if p c then (utf8Bytes c).flatMap pctByte else [c]) ++ pctEncodeWith p cs

/-- Character-list form of JavaScript `encodeURIComponent`. -/
def encList (l : List Char) : List Char :=
  pctEncodeWith (fun c => !isUnreservedURI c) l

/-- Models JavaScript `encodeURIComponent(s)`. -/
def encodeURIComponent (s : String) : String :=
  String.mk (encList s.toList)

/-! ## Line splitting

The playlist rewrite is `data.replace(/^(?!#)(.+)$/gm, cb)`.  With the `m`
flag, `^`/`$` anchor around the line terminators LF, CR, U+2028 and U+2029,
and `.` excludes them, so the regex replace processes each maximal
terminator-free run independently and keeps every terminator in place.
`splitTerm`/`sepsOf`/`joinWith` realize exactly that decomposition. -/

/-- JavaScript regex line terminators (`\n`, `\r`, U+2028, U+2029). -/
def isTerm (c : Char) : Bool :=
  c == '\n' || c == '\r' || c == (Char.ofNat 0x2028) || c == (Char.ofNat 0x2029)

/-- Split a character list at every line terminator
(`n` terminators yield `n + 1` pieces, none containing a terminator). -/
def splitTerm : List Char → List (List Char)
  | [] => [[]]
  | c :: cs =>
    if isTerm c then [] :: splitTerm cs
    else
      match splitTerm cs with
      | [] => [[c]]
      | p :: ps => (c :: p) :: ps

/-- The line terminators of a character list, in order. -/
def sepsOf : List Char → List Char
  | [] => []
  | c :: cs => if isTerm c then c :: sepsOf cs else sepsOf cs

/-- Interleave pieces with separators (inverse of `splitTerm`/`sepsOf`). -/
def joinWith : List (List Char) → List Char → List Char
  | [], _ => []
  | [p], _ => p
  | p :: ps, [] => p ++ joinWith ps []
  | p :: ps, s :: ss => p ++ s :: joinWith ps ss

/-- The lines of a string, in the sense of the `m`-flag regex
(maximal terminator-free runs). -/
def linesOf (s : String) : List String :=
  (splitTerm s.toList).map String.mk

/-! ## The WHATWG `URL` class

Model of `new URL(input)` and `new URL(input, base)` as used by the
handlers, following the WHATWG basic URL parser: input stripping, scheme
parsing, the special-scheme authority states (empty host rejected, `\`
treated as `/`, slashes before the authority ignored), host lowercasing,
default-port elision, dot-segment removal including `%2e` forms, and
percent-encoding of path/query/fragment during parsing.  IPv6 host
literals, IDNA of non-ASCII hosts and the `file:` special cases are not
modelled (the parser fails on `[`-hosts; `file:` is treated like other
non-special schemes). -/

/-- ASCII-lowercase a character (as host parsing does). -/
def lowerAscii (c : Char) : Char :=
  if 'A' ≤ c && c ≤ 'Z' then Char.ofNat (c.toNat + 32) else c

/-- The C0-control percent-encode set (controls and non-ASCII). -/
def inC0Set (c : Char) : Bool :=
  c.toNat < 0x20 || c.toNat > 0x7e

/-- The path percent-encode set. -/
def inPathSet (c : Char) : Bool :=
  inC0Set c || c == ' ' || c == '"' || c == '<' || c == '>' || c == '`' ||
  c == '?' || c == '#' || c == '{' || c == '}'

/-- The query percent-encode set (special URLs also encode `'`). -/
def inQuerySet (c : Char) : Bool :=
  inC0Set c || c == ' ' || c == '"' || c == '<' || c == '>' || c == '#' ||
  c == (Char.ofNat 39)

/-- The fragment percent-encode set. -/
def inFragSet (c : Char) : Bool :=
  inC0Set c || c == ' ' || c == '"' || c == '<' || c == '>' || c == '`'

/-- Code points forbidden in a host. -/
def forbiddenHost (c : Char) : Bool :=
  c.toNat == 0 || c == '\t' || c == '\n' || c == '\r' || c == ' ' ||
  c == '#' || c == '/' || c == ':' || c == '<' || c == '>' || c == '?' ||
  c == '@' || c == '[' || c == '\\' || c == ']' || c == '^' || c == '|'

/-- The special schemes the model supports (the `file` scheme is left out
and handled as non-special). -/
def isSpecialScheme (s : String) : Bool :=
  s == "http" || s == "https" || s == "ws" || s == "wss" || s == "ftp"

/-- Default port of a special scheme. -/
def defaultPort (s : String) : Option Nat :=
  if s == "http" || s == "ws" then some 80
  else if s == "https" || s == "wss" then some 443
  else if s == "ftp" then some 21
  else none

/-- Hierarchical (authority-based) or plain (opaque-path) URL body. -/
inductive URLBody where
  /-- Authority form: userinfo (kept verbatim), host, non-default port and
  path segments (`segs = [""]` is the root path `/`). -/
  | auth (userinfo : Option String) (host : String) (port : Option Nat)
      (segs : List String)
  /-- Scheme followed directly by a plain (non-authority) path. -/
  | plain (p : String)
  deriving DecidableEq

/-- A parsed URL record. -/
structure URLRec where
  scheme : String
  body : URLBody
  query : Option String
  fragment : Option String
  deriving DecidableEq

/-- Is the input preprocessing stripped at both ends
(C0 controls or space)? -/
def stripC0 (c : Char) : Bool :=
  c.toNat ≤ 0x20

/-- WHATWG input preprocessing: strip leading/trailing C0-control-or-space,
then remove every ASCII tab and newline. -/
def preprocess (l : List Char) : List Char :=
  (((l.dropWhile stripC0).reverse.dropWhile stripC0).reverse).filter
    (fun c => !(c == '\t' || c == '\n' || c == '\r'))

/-- A scheme character after the first (letter, digit, `+`, `-`, `.`). -/
def schemeChar (c : Char) : Bool :=
  ('a' ≤ c && c ≤ 'z') || ('A' ≤ c && c ≤ 'Z') || ('0' ≤ c && c ≤ '9') ||
  c == '+' || c == '-' || c == '.'

/-- Parse a scheme prefix `alpha alnum+-.* ":"`; returns the lowercased
scheme and the input after the colon. -/
def parseScheme (l : List Char) : Option (String × List Char) :=
  match l with
  | [] => none
  | c :: cs =>
    if ('a' ≤ c && c ≤ 'z') || ('A' ≤ c && c ≤ 'Z') then
      let rest := cs.dropWhile schemeChar
      let body := cs.takeWhile schemeChar
      match rest with
      | ':' :: r => some (String.mk ((c :: body).map lowerAscii), r)
      | _ => none
    else none

/-- A slash in the sense of the special-URL authority states
(`/` and `\` are interchangeable there). -/
def slashLike (c : Char) : Bool :=
  c == '/' || c == '\\'

/-- Characters ending the authority component (for special URLs `\` ends
it as well). -/
def authEnd (special : Bool) (c : Char) : Bool :=
  c == '/' || c == '?' || c == '#' || (special && c == '\\')

/-- Digits-only string to number. -/
def digitsToNat (l : List Char) : Option Nat :=
  if l.all (fun c => '0' ≤ c && c ≤ '9') then
    some (l.foldl (fun n c => n * 10 + (c.toNat - 48)) 0)
  else none

/-- Split a character list at the last occurrence of `a`
(`none` when absent); the separator is dropped. -/
def splitAtLast (a : Char) (l : List Char) : Option (List Char × List Char) :=
  match l with
  | [] => none
  | c :: cs =>
    match splitAtLast a cs with
    | some (u, v) => some (c :: u, v)
    | none => if c == a then some ([], cs) else none

/-- Split a character list at the first occurrence of `a`
(`none` when absent); the separator is dropped. -/
def splitAtFirst (a : Char) (l : List Char) : Option (List Char × List Char) :=
  match l with
  | [] => none
  | c :: cs =>
    if c == a then some ([], cs)
    else
      match splitAtFirst a cs with
      | some (u, v) => some (c :: u, v)
      | none => none

/-- Parse the authority component of `l` (already past any leading
slashes).  Returns userinfo, host, port and the rest of the input
(which begins with `/`, `\`, `?`, `#` or is empty).  Fails on an empty
host for special schemes, forbidden host code points, `[`-hosts and
invalid ports. -/
def parseAuthority (scheme : String) (l : List Char) :
    Option (Option String × String × Option Nat × List Char) :=
  let special := isSpecialScheme scheme
  let auth := l.takeWhile (fun c => !authEnd special c)
  let rest := l.dropWhile (fun c => !authEnd special c)
  let (userinfo, hostport) :=
    match splitAtLast '@' auth with
    | some (u, h) => (some (String.mk u), h)
    | none => (none, auth)
  let (hostRaw, portRaw) :=
    match splitAtFirst ':' hostport with
    | some (h, p) => (h, some p)
    | none => (hostport, none)
  if hostRaw.any forbiddenHost then none
  else if hostRaw.contains '[' then none
  else if special && hostRaw.isEmpty then none
  else
    let host := String.mk (hostRaw.map lowerAscii)
    match portRaw with
    | none => some (userinfo, host, none, rest)
    | some [] => some (userinfo, host, none, rest)
    | some p =>
      match digitsToNat p with
      | none => none
      | some n =>
        if n ≥ 65536 then none
        else if defaultPort scheme == some n then
          some (userinfo, host, none, rest)
        else some (userinfo, host, some n, rest)

/-- Expand the percent-encoded dot forms `%2e`/`%2E` to `.`
(used only to recognize single/double-dot path segments). -/
def dotExpand : List Char → List Char
  | '%' :: c2 :: ce :: rest =>
    if c2 == '2' && (ce == 'e' || ce == 'E') then '.' :: dotExpand rest
    else '%' :: dotExpand (c2 :: ce :: rest)
  | c :: rest => c :: dotExpand rest
  | [] => []

/-- A single-dot path segment (`.` or `%2e`). -/
def isDot1 (l : List Char) : Bool :=
  dotExpand l == ['.']

/-- A double-dot path segment (`..` and its `%2e` spellings). -/
def isDot2 (l : List Char) : Bool :=
  dotExpand l == ['.', '.']

/-- One step of the path state: handle one raw segment (with the
trailing-position rule for dot segments). -/
def stepSeg (acc : List String) (seg : List Char) (isLast : Bool) :
    List String :=
  if isDot2 seg then
    acc.dropLast ++ (if isLast then [""] else [])
  else if isDot1 seg then
    acc ++ (if isLast then [""] else [])
  else
    acc ++ [String.mk (pctEncodeWith inPathSet seg)]

/-- Fold the path state over the raw segments. -/
def foldSegs (acc : List String) : List (List Char) → List String
  | [] => acc
  | [s] => stepSeg acc s true
  | s :: rest => foldSegs (stepSeg acc s false) rest

/-- Split a path into raw segments at `/` (and `\` for special schemes). -/
def rawSegs (special : Bool) (l : List Char) : List (List Char) :=
  l.splitOnP (fun c => c == '/' || (special && c == '\\'))

/-- Split off fragment (after the first `#`) and query (after the first
`?` before that) from the remaining input. -/
def splitQF (l : List Char) : List Char × Option String × Option String :=
  let (beforeFrag, frag) :=
    match splitAtFirst '#' l with
    | some (b, f) => (b, some (String.mk (pctEncodeWith inFragSet f)))
    | none => (l, none)
  match splitAtFirst '?' beforeFrag with
  | some (b, q) => (b, some (String.mk (pctEncodeWith inQuerySet q)), frag)
  | none => (beforeFrag, none, frag)

/-- Parse the path / query / fragment that follow an authority.  `acc` is
the already-accumulated path (empty for an absolute path; the base's
shortened path during relative resolution). -/
def parsePQF (special : Bool) (acc : List String) (l : List Char) :
    List String × Option String × Option String :=
  let (pathChars, q, f) := splitQF l
  match pathChars with
  | [] => (if acc.isEmpty && special then [""] else acc, q, f)
  | c :: cs =>
    if c == '/' || (special && c == '\\') then
      (foldSegs acc (rawSegs special cs), q, f)
    else
      (foldSegs acc (rawSegs special (c :: cs)), q, f)

/-- Parse what follows `scheme:` of an absolute URL. -/
def parseAfterScheme (scheme : String) (rest : List Char) :
    Option URLRec :=
  if isSpecialScheme scheme then
    -- special authority slashes / ignore slashes: skip every `/` and `\`
    let r := rest.dropWhile slashLike
    match parseAuthority scheme r with
    | none => none
    | some (ui, host, port, r2) =>
      let (segs, q, f) := parsePQF true [] r2
      some ⟨scheme, .auth ui host port segs, q, f⟩
  else
    match rest with
    | '/' :: '/' :: r =>
      match parseAuthority scheme r with
      | none => none
      | some (ui, host, port, r2) =>
        let (segs, q, f) := parsePQF false [] r2
        some ⟨scheme, .auth ui host port segs, q, f⟩
    | _ =>
      let (pathChars, q, f) := splitQF rest
      some ⟨scheme, .plain (String.mk (pctEncodeWith inC0Set pathChars)), q, f⟩

/-- Models `new URL(input)` (no base): `none` when the constructor would
throw. -/
def parseURL (s : String) : Option URLRec :=
  let l := preprocess s.toList
  match parseScheme l with
  | none => none
  | some (scheme, rest) => parseAfterScheme scheme rest

/-- Resolution of input `l` (no scheme of its own, or the base's own
special scheme) against base `b`; covers the relative, relative-slash and
special-authority states. -/
def resolveNoScheme (b : URLRec) (l : List Char) : Option URLRec :=
  match b.body with
  | .plain _ =>
    -- cannot-be-a-base URLs only accept fragments
    (match l with
     | '#' :: f =>
       some { b with fragment := some (String.mk (pctEncodeWith inFragSet f)) }
     | _ => none)
  | .auth ui host port segs =>
    let special := isSpecialScheme b.scheme
    let slashes := (l.takeWhile slashLike).length
    if slashes ≥ 2 then
      -- protocol-relative: parse a fresh authority
      match parseAuthority b.scheme (l.dropWhile slashLike) with
      | none => none
      | some (ui2, host2, port2, r2) =>
        let (segs2, q, f) := parsePQF special [] r2
        some ⟨b.scheme, .auth ui2 host2 port2 segs2, q, f⟩
    else if slashes == 1 then
      -- root-relative: keep authority, fresh path
      let (segs2, q, f) := parsePQF special [] (l.drop 1)
      some ⟨b.scheme, .auth ui host port segs2, q, f⟩
    else
      match l with
      | [] => some ⟨b.scheme, .auth ui host port segs, b.query, none⟩
      | '?' :: q =>
        some ⟨b.scheme, .auth ui host port segs,
          some (String.mk (pctEncodeWith inQuerySet q)), none⟩
      | '#' :: f =>
        some ⟨b.scheme, .auth ui host port segs, b.query,
          some (String.mk (pctEncodeWith inFragSet f))⟩
      | _ =>
        -- relative path: drop the last base segment, then the path state
        let (segs2, q, f) := parsePQF special segs.dropLast l
        some ⟨b.scheme, .auth ui host port segs2, q, f⟩

/-- Models `new URL(input, base)` for an already-parsed valid `base`:
`none` when the constructor would throw. -/
def resolveAgainst (b : URLRec) (input : String) : Option URLRec :=
  let l := preprocess input.toList
  match parseScheme l with
  | some (scheme, rest) =>
    if scheme == b.scheme && isSpecialScheme scheme then
      -- special relative or authority state
      match rest with
      | '/' :: '/' :: r => parseAfterScheme scheme ('/' :: '/' :: r)
      | _ => resolveNoScheme b rest
    else
      parseAfterScheme scheme rest
  | none => resolveNoScheme b l

/-- Serialize the path of an authority URL. -/
def pathString (segs : List String) : String :=
  match segs with
  | [] => ""
  | _ => "/" ++ String.intercalate "/" segs

/-- `url.host` of the URL API: host plus `:port` when a non-default port
is present. -/
def hostOf (u : URLRec) : String :=
  match u.body with
  | .auth _ h p _ =>
    h ++ (match p with | some n => ":" ++ toString n | none => "")
  | .plain _ => ""

/-- `url.protocol` of the URL API (scheme with trailing colon). -/
def protocolOf (u : URLRec) : String :=
  u.scheme ++ ":"

/-- `url.pathname` of the URL API. -/
def pathnameOf (u : URLRec) : String :=
  match u.body with
  | .auth _ _ _ segs => pathString segs
  | .plain p => p

/-- `url.toString()` / `url.href`: the URL serializer. -/
def serializeURL (u : URLRec) : String :=
  u.scheme ++ ":" ++
  (match u.body with
   | .auth ui h p segs =>
     "//" ++ (match ui with | some s => s ++ "@" | none => "") ++
     h ++ (match p with | some n => ":" ++ toString n | none => "") ++
     pathString segs
   | .plain p => p) ++
  (match u.query with | some q => "?" ++ q | none => "") ++
  (match u.fragment with | some f => "#" ++ f | none => "")

/-! ## The playlist rewrite

Embedding of the `.m3u8` rewrite of `src/unnamed/part_000`
(`app.get("/proxy")`, lines 61-91; the same callback appears in the
`userResDecorator` at lines 226-273):

```js
const rewritten = data.replace(/^(?!#)(.+)$/gm, (line) => {
    if (line.startsWith('#') || !line.trim()) return line;
    let newUrl;
    try {
        if (/^https?:\/\//.test(line)) {
            newUrl = `/proxy?url=${encodeURIComponent(line)}`;
        } else if (line.startsWith('/')) {
            const urlObj = new URL(baseUrl);
            let resolved = `${urlObj.protocol}//${urlObj.host}${line}`;
            newUrl = `/proxy?url=${encodeURIComponent(resolved)}`;
        } else {
            const urlObj = new URL(baseUrl);
            let resolved = new URL(line, urlObj).toString();
            newUrl = `/proxy?url=${encodeURIComponent(resolved)}`;
        }
        return newUrl;
    } catch (e) {
        return line;
    }
});
```
-/

/-- The regex test `/^https?:\/\//.test(line)`. -/
def matchesHttpAbs (line : String) : Bool :=
  strStarts line "http://" || strStarts line "https://"

/-- The replacement callback of the playlist rewrite, for one line
(a `try`-branch that throws yields the unchanged line). -/
def rewriteLine (baseUrl line : String) : String :=
  if strStarts line "#" || jsTrim line == "" then line
  else if matchesHttpAbs line then
    "/proxy?url=" ++ encodeURIComponent line
  else if strStarts line "/" then
    match parseURL baseUrl with
    | some u =>
      "/proxy?url=" ++ encodeURIComponent (protocolOf u ++ "//" ++ hostOf u ++ line)
    | none => line
  else
    match parseURL baseUrl with
    | none => line
    | some u =>
      match resolveAgainst u line with
      | some r => "/proxy?url=" ++ encodeURIComponent (serializeURL r)
      | none => line

/-- The whole-body rewrite `data.replace(/^(?!#)(.+)$/gm, cb)`: each
maximal terminator-free run goes through the callback (the regex itself
already skips empty runs and runs starting with `#`, which the callback
also returns unchanged), and every line terminator stays in place. -/
def rewritePlaylist (baseUrl body : String) : String :=
  String.mk
    (joinWith
      ((splitTerm body.toList).map
        (fun l => (rewriteLine baseUrl (String.mk l)).toList))
      (sepsOf body.toList))

/-! ## The `/proxy` handler -/

/-- The outbound request headers the handler constructs (the fixed
`User-Agent`, `Accept` and `Connection` values are omitted from the
record because every request carries the same ones). -/
structure ReqHeaders where
  host : String
  referer : Option String
  origin : Option String
  cookie : Option String
  deriving DecidableEq

/-- Header construction of `app.get("/proxy")` (`src/proxy.js` lines
24-41, `src/unnamed/part_000` lines 35-52): `Host` from the parsed URL,
`Referer`/`Origin` iff `targetUrl.includes("edgenextcdn.net")`, cookie
forwarded when present. -/
def mkOptions (targetUrl : String) (u : URLRec) (cookie : Option String) :
    ReqHeaders :=
  { host := hostOf u
    referer :=
      if strIncludes targetUrl "edgenextcdn.net" then
        some "https://www.shahid.net/"
      else none
    origin :=
      if strIncludes targetUrl "edgenextcdn.net" then
        some "https://www.shahid.net"
      else none
    cookie := cookie }

/-- Observable outcome of the handler head: either a response finished
without any upstream contact, or an upstream GET with the computed
headers. -/
inductive ProxyAction where
  | respond (status : Nat) (msg : String)
  | fetch (url : String) (headers : ReqHeaders)
  deriving DecidableEq

/-- The head of `app.get("/proxy")`: missing (or empty, hence falsy)
`url` → 400; `new URL(targetUrl)` throwing → the `catch` → 500
`Proxy setup failed`; otherwise an upstream GET. -/
def proxyHandler (url : Option String) (cookie : Option String) :
    ProxyAction :=
  match url with
  | none => .respond 400 "Missing url param"
  | some u =>
    if u == "" then .respond 400 "Missing url param"
    else
      match parseURL u with
      | none => .respond 500 "Proxy setup failed"
      | some rec => .fetch u (mkOptions u rec cookie)

/-- The status code of a no-upstream response (`none` when the handler
went on to contact the upstream). -/
def actionStatus : ProxyAction → Option Nat
  | .respond s _ => some s
  | .fetch _ _ => none

/-- What the handler sends downstream once the upstream response is in. -/
structure ProxyResponse where
  status : Nat
  contentTypeOverride : Option String
  body : String
  deriving DecidableEq

/-- The upstream-response callback of `app.get("/proxy")`
(`src/unnamed/part_000` lines 54-91): if
`targetUrl.endsWith('.m3u8')` the body is buffered, rewritten and the
`content-type` forced to the HLS media type; otherwise the body is piped
through unmodified. -/
def proxyRespond (targetUrl : String) (upstreamStatus : Nat)
    (upstreamBody : String) : ProxyResponse :=
  if strEnds targetUrl ".m3u8" then
    { status := upstreamStatus
      contentTypeOverride := some "application/vnd.apple.mpegurl"
      body := rewritePlaylist targetUrl upstreamBody }
  else
    { status := upstreamStatus
      contentTypeOverride := none
      body := upstreamBody }

/-! ## The `/epg` handler -/

/-- A programme entry as produced by `xml2js` with `mergeAttrs: true`:
every present field is an array of strings. -/
structure Programme where
  channel : Option (List String)
  start : Option (List String)
  stop : Option (List String)
  title : Option (List String)
  subTitle : Option (List String)
  desc : Option (List String)
  deriving DecidableEq

/-- The filter predicate `(p) => p.channel && p.channel[0] === channelFilter`. -/
def channelMatches (filter : String) (p : Programme) : Bool :=
  match p.channel with
  | some (c :: _) => c == filter
  | _ => false

/-- One JSON programme object (`null` fields as `none`). -/
structure ProgrammeJson where
  start : Option String
  stop : Option String
  title : Option String
  subTitle : Option String
  desc : Option String
  deriving DecidableEq

/-- `x?.[0] || null`: the first element unless it is missing or falsy
(the empty string is falsy and becomes `null`). -/
def headOrNull (x : Option (List String)) : Option String :=
  match x with
  | some (s :: _) => if s == "" then none else some s
  | _ => none

/-- The JSON projection
`{start: p.start[0], stop: p.stop[0], title: p.title?.[0] || null, ...}`:
`p.start[0]` on a missing `start` (or `stop`) throws a `TypeError`,
modelled as `none`. -/
def mapProgramme (p : Programme) : Option ProgrammeJson :=
  match p.start, p.stop with
  | some s, some t =>
    some
      { start := s.head?
        stop := t.head?
        title := headOrNull p.title
        subTitle := headOrNull p.subTitle
        desc := headOrNull p.desc }
  | _, _ => none

/-- The upstream EPG document as the handler sees it after
`parseStringPromise`. -/
inductive EpgFetch where
  /-- Network error or unparseable XML (the `catch` branch). -/
  | failed
  /-- Parsed, but `parsed.tv` is missing. -/
  | noTv
  /-- Parsed with `parsed.tv` present; `parsed.tv.programme` may still be
  absent (`|| []`). -/
  | ok (programmes : Option (List Programme))
  deriving DecidableEq

/-- Observable outcome of `app.get("/epg")`. -/
inductive EpgAction where
  | badRequest (msg : String)
  | serverError (msg : String)
  | jsonOk (channel : String) (programmes : List ProgrammeJson)
  | xmlOk (programmes : List Programme)
  deriving DecidableEq

/-- `app.get("/epg")` (`src/proxy.js` lines 61-114, `src/unnamed/part_000`
lines 104-157): missing or empty (falsy) `channel` → 400; fetch/parse
failure → 500; missing `parsed.tv` → 500; otherwise filter by exact
channel equality and serialize as JSON (`format === "json"`; a thrown
`p.start[0]`/`p.stop[0]` lands in the `catch` → 500) or as XML. -/
def epgHandler (channel : Option String) (format : Option String)
    (fetch : EpgFetch) : EpgAction :=
  match channel with
  | none => .badRequest "Missing 'channel' query param"
  | some ch =>
    if ch == "" then .badRequest "Missing 'channel' query param"
    else
      match fetch with
      | .failed => .serverError "Failed to fetch or parse EPG"
      | .noTv => .serverError "Invalid EPG format"
      | .ok progs =>
        let all := progs.getD []
        let filtered := all.filter (channelMatches ch)
        let fmt :=
          match format with
          | none => "xml"
          | some f => if f == "" then "xml" else f
        if fmt == "json" then
          match filtered.mapM mapProgramme with
          | some js => .jsonOk ch js
          | none => .serverError "Failed to fetch or parse EPG"
        else .xmlOk filtered

/-- HTTP status of an `/epg` outcome. -/
def epgStatus : EpgAction → Nat
  | .badRequest _ => 400
  | .serverError _ => 500
  | .jsonOk _ _ => 200
  | .xmlOk _ => 200

/-! ## Spec-side definitions for refinement comparison -/

/-- The spec's condition for the rewrite path, in the spec's words:
"the target URL's path ends in the literal suffix `.m3u8`". -/
def specPathEndsM3u8 (url : String) : Bool :=
  match parseURL url with
  | some u => strEnds (pathnameOf u) ".m3u8"
  | none => false

/-- The spec's condition for the anti-bot headers, in the spec's words:
"the upstream host matches the known anti-bot-protected CDN"
(`edgenextcdn.net` itself or one of its subdomains). -/
def specHostMatchesCdn (host : String) : Bool :=
  host == "edgenextcdn.net" || strEnds host ".edgenextcdn.net"

/-! ## Infrastructure lemmas -/

theorem toList_append (a b : String) : (a ++ b).toList = a.toList ++ b.toList :=
  rfl

theorem mk_toList (s : String) : String.mk s.toList = s :=
  rfl

theorem toList_mk (l : List Char) : (String.mk l).toList = l :=
  rfl

theorem listStarts_app (p t : List Char) : listStarts p (p ++ t) = true := by
  induction p with
  | nil => rfl
  | cons c cs ih => simp [listStarts, ih]

theorem listStarts_head {p : Char} {ps l : List Char}
    (h : listStarts (p :: ps) l = true) : ∃ cs, l = p :: cs := by
  cases l with
  | nil => simp [listStarts] at h
  | cons c cs =>
    simp only [listStarts, Bool.and_eq_true, beq_iff_eq] at h
    exact ⟨cs, by rw [h.1]⟩

theorem listStarts_ne_head {p c : Char} {ps cs : List Char}
    (h : (p == c) = false) : listStarts (p :: ps) (c :: cs) = false := by
  simp [listStarts, h]

theorem splitTerm_ne_nil (l : List Char) : splitTerm l ≠ [] := by
  induction l with
  | nil => simp [splitTerm]
  | cons c cs ih =>
    simp only [splitTerm]
    split
    · simp
    · split
      · simp
      · simp

theorem splitTerm_termfree (l : List Char) :
    ∀ p ∈ splitTerm l, ∀ c ∈ p, isTerm c = false := by
  induction l with
  | nil =>
    intro p hp
    simp [splitTerm] at hp
    simp [hp]
  | cons a as ih =>
    intro p hp c hc
    by_cases ha : isTerm a
    · rw [splitTerm, if_pos ha] at hp
      rcases List.mem_cons.mp hp with h | h
      · subst h; simp at hc
      · exact ih p h c hc
    · rw [splitTerm, if_neg ha] at hp
      rcases hq : splitTerm as with _ | ⟨q, qs⟩
      · exact absurd hq (splitTerm_ne_nil as)
      · rw [hq] at hp
        rcases List.mem_cons.mp hp with h | h
        · subst h
          rcases List.mem_cons.mp hc with h | h
          · subst h; exact Bool.eq_false_iff.mpr ha
          · exact ih q (hq ▸ List.mem_cons_self q qs) c h
        · exact ih p (hq ▸ List.mem_cons.mpr (Or.inr h)) c hc

theorem sepsOf_terms (l : List Char) : ∀ s ∈ sepsOf l, isTerm s = true := by
  induction l with
  | nil => intro s hs; simp [sepsOf] at hs
  | cons a as ih =>
    intro s hs
    by_cases ha : isTerm a
    · rw [sepsOf, if_pos ha] at hs
      rcases List.mem_cons.mp hs with h | h
      · subst h; exact ha
      · exact ih s h
    · rw [sepsOf, if_neg ha] at hs
      exact ih s hs

theorem splitTerm_len (l : List Char) :
    (splitTerm l).length = (sepsOf l).length + 1 := by
  induction l with
  | nil => rfl
  | cons a as ih =>
    by_cases ha : isTerm a
    · rw [splitTerm, if_pos ha, sepsOf, if_pos ha]
      simp [ih]
    · rw [splitTerm, if_neg ha, sepsOf, if_neg ha]
      rcases hq : splitTerm as with _ | ⟨q, qs⟩
      · exact absurd hq (splitTerm_ne_nil as)
      · rw [hq] at ih
        simpa using ih

theorem splitTerm_all_termfree (l : List Char)
    (h : ∀ c ∈ l, isTerm c = false) : splitTerm l = [l] := by
  induction l with
  | nil => rfl
  | cons a as ih =>
    have ha : isTerm a = false := h a (List.mem_cons_self a as)
    rw [splitTerm, if_neg (by simp [ha])]
    rw [ih (fun c hc => h c (List.mem_cons.mpr (Or.inr hc)))]

theorem splitTerm_append_cons (p : List Char)
    (hp : ∀ c ∈ p, isTerm c = false) (s : Char) (hs : isTerm s = true)
    (rest : List Char) : splitTerm (p ++ s :: rest) = p :: splitTerm rest := by
  induction p with
  | nil => simp [splitTerm, hs]
  | cons a as ih =>
    have ha : isTerm a = false := hp a (List.mem_cons_self a as)
    rw [List.cons_append, splitTerm, if_neg (by simp [ha])]
    rw [ih (fun c hc => hp c (List.mem_cons.mpr (Or.inr hc)))]

theorem joinWith_cons_cons (p q : List Char) (qs : List (List Char))
    (s : Char) (ss : List Char) :
    joinWith (p :: q :: qs) (s :: ss) = p ++ s :: joinWith (q :: qs) ss :=
  rfl

theorem splitTerm_joinWith (seps : List Char) :
    ∀ pieces : List (List Char),
      (∀ p ∈ pieces, ∀ c ∈ p, isTerm c = false) →
      (∀ s ∈ seps, isTerm s = true) →
      pieces.length = seps.length + 1 →
      splitTerm (joinWith pieces seps) = pieces := by
  induction seps with
  | nil =>
    intro pieces hp _ hlen
    match pieces, hlen with
    | [p], _ =>
      show splitTerm (joinWith [p] []) = [p]
      exact splitTerm_all_termfree p (hp p (List.mem_cons_self p []))
  | cons s ss ih =>
    intro pieces hp hs hlen
    match pieces, hlen with
    | p :: q :: qs, hlen =>
      rw [joinWith_cons_cons]
      rw [splitTerm_append_cons p (hp p (List.mem_cons_self _ _)) s
        (hs s (List.mem_cons_self _ _))]
      congr 1
      apply ih
      · intro r hr
        exact hp r (List.mem_cons.mpr (Or.inr hr))
      · intro t ht
        exact hs t (List.mem_cons.mpr (Or.inr ht))
      · simp at hlen
        simpa using hlen

theorem unres_not_term {c : Char} (h : isUnreservedURI c = true) :
    isTerm c = false := by
  cases hc : isTerm c with
  | false => rfl
  | true =>
    exfalso
    simp only [isTerm, Bool.or_eq_true, beq_iff_eq] at hc
    rcases hc with ((rfl | rfl) | rfl) | rfl <;> exact absurd h (by decide)

theorem hex_not_term (n : Nat) : isTerm (hexDigitU n) = false := by
  unfold hexDigitU
  split <;> decide

theorem pctByte_not_term (b : Nat) : ∀ c ∈ pctByte b, isTerm c = false := by
  intro c hc
  rcases List.mem_cons.mp hc with h | h
  · subst h; decide
  · rcases List.mem_cons.mp h with h | h
    · subst h; exact hex_not_term _
    · rcases List.mem_cons.mp h with h | h
      · subst h; exact hex_not_term _
      · simp at h

theorem encList_termfree (l : List Char) :
    ∀ c ∈ encList l, isTerm c = false := by
  induction l with
  | nil => intro c hc; simp [encList, pctEncodeWith] at hc
  | cons a as ih =>
    intro c hc
    simp only [encList, pctEncodeWith] at hc
    rcases List.mem_append.mp hc with h | h
    · by_cases ha : isUnreservedURI a
      · rw [if_neg (by simp [ha])] at h
        rcases List.mem_cons.mp h with h | h
        · subst h; exact unres_not_term ha
        · simp at h
      · rw [if_pos (by simp [Bool.not_eq_true] at ha ⊢; exact ha)] at h
        rcases List.mem_flatMap.mp h with ⟨b, _, hb⟩
        exact pctByte_not_term b c hb
    · exact ih c h

theorem rewriteLine_shape (base line : String) :
    rewriteLine base line = line ∨
    ∃ s, rewriteLine base line = "/proxy?url=" ++ encodeURIComponent s := by
  unfold rewriteLine
  split
  · exact Or.inl rfl
  · split
    · exact Or.inr ⟨line, rfl⟩
    · split
      · split
        · exact Or.inr ⟨_, rfl⟩
        · exact Or.inl rfl
      · split
        · exact Or.inl rfl
        · split
          · exact Or.inr ⟨_, rfl⟩
          · exact Or.inl rfl

theorem rewriteLine_termfree (base line : String)
    (h : ∀ c ∈ line.toList, isTerm c = false) :
    ∀ c ∈ (rewriteLine base line).toList, isTerm c = false := by
  rcases rewriteLine_shape base line with he | ⟨s, he⟩
  · rw [he]; exact h
  · rw [he]
    intro c hc
    rw [toList_append] at hc
    rcases List.mem_append.mp hc with h1 | h2
    · have hall : ∀ c ∈ "/proxy?url=".toList, isTerm c = false := by decide
      exact hall c h1
    · exact encList_termfree s.toList c h2

theorem linesOf_rewritePlaylist (base body : String) :
    linesOf (rewritePlaylist base body) =
      (linesOf body).map (rewriteLine base) := by
  unfold linesOf rewritePlaylist
  rw [toList_mk]
  rw [splitTerm_joinWith (sepsOf body.toList)
    ((splitTerm body.toList).map
      (fun l => (rewriteLine base (String.mk l)).toList))]
  · rw [List.map_map, List.map_map]
    apply List.map_congr_left
    intro l _
    show String.mk (rewriteLine base (String.mk l)).toList =
      rewriteLine base (String.mk l)
    exact mk_toList _
  · intro p hp c hc
    rcases List.mem_map.mp hp with ⟨l, hl, rfl⟩
    exact rewriteLine_termfree base (String.mk l)
      (fun c hc => splitTerm_termfree body.toList l hl c hc) c hc
  · exact sepsOf_terms body.toList
  · rw [List.length_map]
    exact splitTerm_len body.toList

theorem strStarts_one_false {line : String} {a c : Char} {cs : List Char}
    (hl : line.toList = c :: cs) (hne : (a == c) = false) :
    strStarts line (String.mk [a]) = false := by
  unfold strStarts
  rw [hl, toList_mk]
  exact listStarts_ne_head hne

theorem trim_ne_of_head {line : String} {c : Char} {cs : List Char}
    (hl : line.toList = c :: cs) (hws : jsWs c = false) :
    (jsTrim line == "") = false := by
  apply beq_eq_false_iff_ne.mpr
  intro heq
  unfold jsTrim trimL at heq
  rw [hl, List.dropWhile_cons, if_neg (by simp [hws])] at heq
  have h0 : ((c :: cs).reverse.dropWhile jsWs).reverse = [] := by
    simpa using congrArg String.toList heq
  have h1 : (c :: cs).reverse.dropWhile jsWs = [] := by
    simpa using congrArg List.reverse h0
  have h2 := List.dropWhile_eq_nil_iff.mp h1 c (by simp)
  rw [hws] at h2
  exact Bool.false_ne_true h2

theorem httpAbs_false_of_head {line : String} {c : Char} {cs : List Char}
    (hl : line.toList = c :: cs) (h1 : ('h' == c) = false) :
    matchesHttpAbs line = false := by
  unfold matchesHttpAbs strStarts
  rw [hl]
  rw [show "http://".toList = 'h' :: "ttp://".toList from rfl]
  rw [show "https://".toList = 'h' :: "ttps://".toList from rfl]
  rw [listStarts_ne_head h1, listStarts_ne_head h1]
  rfl

theorem rewriteLine_abs (base line : String)
    (h : matchesHttpAbs line = true) :
    rewriteLine base line = "/proxy?url=" ++ encodeURIComponent line := by
  obtain ⟨cs, hl⟩ : ∃ cs, line.toList = 'h' :: cs := by
    have h2 : strStarts line "http://" = true ∨
        strStarts line "https://" = true := by
      simpa [matchesHttpAbs] using h
    rcases h2 with h' | h'
    · unfold strStarts at h'
      rw [show "http://".toList = 'h' :: "ttp://".toList from rfl] at h'
      exact listStarts_head h'
    · unfold strStarts at h'
      rw [show "https://".toList = 'h' :: "ttps://".toList from rfl] at h'
      exact listStarts_head h'
  have g1 : strStarts line "#" = false := strStarts_one_false hl (by decide)
  have g2 : (jsTrim line == "") = false := trim_ne_of_head hl (by decide)
  simp [rewriteLine, g1, g2, h]

theorem rewriteLine_root (base line : String) {u : URLRec}
    (hs : strStarts line "/" = true) (hu : parseURL base = some u) :
    rewriteLine base line =
      "/proxy?url=" ++
        encodeURIComponent (protocolOf u ++ "//" ++ hostOf u ++ line) := by
  obtain ⟨cs, hl⟩ : ∃ cs, line.toList = '/' :: cs := by
    unfold strStarts at hs
    rw [show "/".toList = ['/'] from rfl] at hs
    exact listStarts_head hs
  have g1 : strStarts line "#" = false := strStarts_one_false hl (by decide)
  have g2 : (jsTrim line == "") = false := trim_ne_of_head hl (by decide)
  have g3 : matchesHttpAbs line = false := httpAbs_false_of_head hl (by decide)
  simp [rewriteLine, g1, g2, g3, hs, hu]

theorem rewriteLine_rel (base line : String) {u r : URLRec}
    (g1 : strStarts line "#" = false) (g2 : jsTrim line ≠ "")
    (g3 : matchesHttpAbs line = false) (g4 : strStarts line "/" = false)
    (hu : parseURL base = some u) (hr : resolveAgainst u line = some r) :
    rewriteLine base line =
      "/proxy?url=" ++ encodeURIComponent (serializeURL r) := by
  have g2' : (jsTrim line == "") = false := beq_eq_false_iff_ne.mpr g2
  simp [rewriteLine, g1, g2', g3, g4, hu, hr]

theorem rewriteLine_guard (base line : String)
    (h : strStarts line "#" = true ∨ jsTrim line = "") :
    rewriteLine base line = line := by
  rcases h with h | h
  · simp [rewriteLine, h]
  · simp [rewriteLine, h]

/-! ## The claims -/

/-- C1: in the playlist rewrite, every non-comment, non-blank line that
matches the absolute URL pattern (`http://` or `https://` prefix) is
rewritten to exactly `/proxy?url=` followed by the percent-encoding of the
original URL. -/
theorem c1_absolute_line_rewrite (base body : String) (i : Nat)
    (line : String) (hline : (linesOf body)[i]? = some line)
    (h1 : strStarts line "#" = false) (h2 : jsTrim line ≠ "")
    (h3 : matchesHttpAbs line = true) :
    (linesOf (rewritePlaylist base body))[i]? =
      some ("/proxy?url=" ++ encodeURIComponent line) := by
  rw [linesOf_rewritePlaylist, List.getElem?_map, hline]
  simp [rewriteLine_abs base line h3]

theorem c1_witness :
    (linesOf (rewritePlaylist "https://h/a/b/master.m3u8"
        "#EXTM3U\nhttps://cdn.example.org/x.ts"))[1]? =
      some ("/proxy?url=" ++ encodeURIComponent "https://cdn.example.org/x.ts") :=
  c1_absolute_line_rewrite "https://h/a/b/master.m3u8"
    "#EXTM3U\nhttps://cdn.example.org/x.ts" 1 "https://cdn.example.org/x.ts"
    (by decide) (by decide) (by decide) (by decide)

/-- C2 counterexample: for original URL `https://h/a/b/master.m3u8` and the
purely relative line `seg1.ts`, standard URL-relative-resolution (and the
code) yields `https://h/a/b/seg1.ts`, not the spec example's
`https://h/a/seg1.ts`: the rewritten line differs from
`/proxy?url=<percent-encoded "https://h/a/seg1.ts">`. -/
theorem c2_counterexample :
    (linesOf (rewritePlaylist "https://h/a/b/master.m3u8" "seg1.ts"))[0]? =
      some ("/proxy?url=" ++ encodeURIComponent "https://h/a/b/seg1.ts") ∧
    "/proxy?url=" ++ encodeURIComponent "https://h/a/b/seg1.ts" ≠
      "/proxy?url=" ++ encodeURIComponent "https://h/a/seg1.ts" := by
  constructor
  · decide
  · decide

/-- C2 (amended): in the playlist rewrite, every purely relative line (not
starting with `#`, `/`, or an http(s) scheme; non-blank) is rewritten to
`/proxy?url=` followed by the percent-encoding of the resolution of the
line against the original upstream URL per standard
URL-relative-resolution rules — which for line `seg1.ts` against
`https://h/a/b/master.m3u8` yields `https://h/a/b/seg1.ts` (the last base
path segment is dropped, the others kept), not `https://h/a/seg1.ts`. -/
theorem c2_relative_line_rewrite (base body : String) (i : Nat)
    (line : String) (u r : URLRec)
    (hline : (linesOf body)[i]? = some line)
    (h1 : strStarts line "#" = false) (h2 : jsTrim line ≠ "")
    (h3 : matchesHttpAbs line = false) (h4 : strStarts line "/" = false)
    (hu : parseURL base = some u) (hr : resolveAgainst u line = some r) :
    (linesOf (rewritePlaylist base body))[i]? =
      some ("/proxy?url=" ++ encodeURIComponent (serializeURL r)) := by
  rw [linesOf_rewritePlaylist, List.getElem?_map, hline]
  simp [rewriteLine_rel base line h1 h2 h3 h4 hu hr]

theorem c2_witness :
    (linesOf (rewritePlaylist "https://h/a/b/master.m3u8"
        "#EXTM3U\nseg1.ts"))[1]? =
      some ("/proxy?url=" ++ encodeURIComponent (serializeURL
        ⟨"https", .auth none "h" none ["a", "b", "seg1.ts"], none, none⟩)) ∧
    serializeURL
        ⟨"https", .auth none "h" none ["a", "b", "seg1.ts"], none, none⟩ =
      "https://h/a/b/seg1.ts" :=
  ⟨c2_relative_line_rewrite "https://h/a/b/master.m3u8" "#EXTM3U\nseg1.ts" 1
      "seg1.ts"
      ⟨"https", .auth none "h" none ["a", "b", "master.m3u8"], none, none⟩
      ⟨"https", .auth none "h" none ["a", "b", "seg1.ts"], none, none⟩
      (by decide) (by decide) (by decide) (by decide) (by decide) (by decide)
      (by decide),
    by decide⟩

/-- C3: in the playlist rewrite, every root-relative line (beginning with
`/`) is, when the original upstream URL parses, resolved against the
original URL's scheme and host by concatenation
(`urlObj.protocol + "//" + urlObj.host + line`) and replaced by
`/proxy?url=` followed by the percent-encoding of that resolved URL; for
base `https://h/a/b/master.m3u8` and line `/live/seg1.ts` the resolved URL
is `https://h/live/seg1.ts` (see the witness). -/
theorem c3_root_relative_rewrite (base body : String) (i : Nat)
    (line : String) (u : URLRec)
    (hline : (linesOf body)[i]? = some line)
    (hs : strStarts line "/" = true) (hu : parseURL base = some u) :
    (linesOf (rewritePlaylist base body))[i]? =
      some ("/proxy?url=" ++
        encodeURIComponent (protocolOf u ++ "//" ++ hostOf u ++ line)) := by
  rw [linesOf_rewritePlaylist, List.getElem?_map, hline]
  simp [rewriteLine_root base line hs hu]

theorem c3_witness :
    (linesOf (rewritePlaylist "https://h/a/b/master.m3u8"
        "#EXTM3U\n/live/seg1.ts"))[1]? =
      some ("/proxy?url=" ++ encodeURIComponent
        (protocolOf ⟨"https", .auth none "h" none ["a", "b", "master.m3u8"],
            none, none⟩ ++ "//" ++
          hostOf ⟨"https", .auth none "h" none ["a", "b", "master.m3u8"],
            none, none⟩ ++ "/live/seg1.ts")) ∧
    protocolOf ⟨"https", .auth none "h" none ["a", "b", "master.m3u8"],
        none, none⟩ ++ "//" ++
      hostOf ⟨"https", .auth none "h" none ["a", "b", "master.m3u8"],
        none, none⟩ ++ "/live/seg1.ts" = "https://h/live/seg1.ts" :=
  ⟨c3_root_relative_rewrite "https://h/a/b/master.m3u8"
      "#EXTM3U\n/live/seg1.ts" 1 "/live/seg1.ts"
      ⟨"https", .auth none "h" none ["a", "b", "master.m3u8"], none, none⟩
      (by decide) (by decide) (by decide),
    by decide⟩

/-- C8: in the playlist rewrite, comment/directive lines (beginning with
`#`) and blank lines are returned unchanged. -/
theorem c8_comment_blank_unchanged (base body : String) (i : Nat)
    (line : String) (hline : (linesOf body)[i]? = some line)
    (h : strStarts line "#" = true ∨ jsTrim line = "") :
    (linesOf (rewritePlaylist base body))[i]? = some line := by
  rw [linesOf_rewritePlaylist, List.getElem?_map, hline]
  simp [rewriteLine_guard base line h]

theorem c8_witness :
    (linesOf (rewritePlaylist "https://h/a/b/master.m3u8"
        "#EXTM3U\nseg1.ts"))[0]? = some "#EXTM3U" :=
  c8_comment_blank_unchanged "https://h/a/b/master.m3u8" "#EXTM3U\nseg1.ts" 0
    "#EXTM3U" (by decide) (Or.inl (by decide))

/-- C10: the playlist rewrite maps each input line to exactly one output
line — the output's line list is precisely the input's line list mapped
through the per-line rewrite, so it has the same number of lines in the
same order (rewritten lines cannot introduce line breaks because
percent-encoding escapes CR and LF). -/
theorem c10_line_correspondence (base body : String) :
    linesOf (rewritePlaylist base body) =
      (linesOf body).map (rewriteLine base) ∧
    (linesOf (rewritePlaylist base body)).length = (linesOf body).length :=
  ⟨linesOf_rewritePlaylist base body,
    by rw [linesOf_rewritePlaylist]; exact List.length_map _ _⟩

/-- C4 counterexample: for original URL `https://h/a/b/master.m3u8` and
body line `http:` (non-comment, non-blank), `new URL("http:", base)`
throws (the `http` scheme differs from the base's `https`, and a special
scheme with an empty host is invalid), so the line is left unchanged and
the output line does not reference the relay endpoint. -/
theorem c4_counterexample :
    (linesOf (rewritePlaylist "https://h/a/b/master.m3u8"
        "#EXTM3U\nhttp:"))[1]? = some "http:" ∧
    strStarts "http:" "#" = false ∧ jsTrim "http:" ≠ "" ∧
    strStarts "http:" "/proxy?url=" = false := by
  refine ⟨by decide, by decide, by decide, by decide⟩

/-- C4 (amended): every non-comment, non-blank line of the rewrite's
output either references the relay endpoint (starts with `/proxy?url=`)
or is an input line left unchanged (which happens exactly when URL
resolution for that line fails, e.g. the line `http:`). -/
theorem c4_output_lines_relay_or_unchanged (base body line : String)
    (hmem : line ∈ linesOf (rewritePlaylist base body))
    (h1 : strStarts line "#" = false) (h2 : jsTrim line ≠ "") :
    strStarts line "/proxy?url=" = true ∨ line ∈ linesOf body := by
  rw [linesOf_rewritePlaylist] at hmem
  rcases List.mem_map.mp hmem with ⟨l, hl, rfl⟩
  rcases rewriteLine_shape base l with he | ⟨s, he⟩
  · rw [he]
    exact Or.inr hl
  · rw [he]
    left
    unfold strStarts
    rw [toList_append]
    exact listStarts_app _ _

theorem c4_witness :
    strStarts ("/proxy?url=" ++ encodeURIComponent "https://h/a/b/seg1.ts")
        "/proxy?url=" = true ∨
      "/proxy?url=" ++ encodeURIComponent "https://h/a/b/seg1.ts" ∈
        linesOf "#EXTM3U\nseg1.ts" :=
  c4_output_lines_relay_or_unchanged "https://h/a/b/master.m3u8"
    "#EXTM3U\nseg1.ts"
    ("/proxy?url=" ++ encodeURIComponent "https://h/a/b/seg1.ts")
    (by decide) (by decide) (by decide)

/-- C5 counterexample: for target URL
`https://h/live/index.m3u8?token=abc` the URL's *path* ends in `.m3u8`,
but the code tests `targetUrl.endsWith('.m3u8')` on the whole URL string
(which ends in the query), so the response is streamed through unmodified
with no Content-Type forcing — the rewrite path is not taken. -/
theorem c5_counterexample :
    specPathEndsM3u8 "https://h/live/index.m3u8?token=abc" = true ∧
    proxyRespond "https://h/live/index.m3u8?token=abc" 200 "seg1.ts" =
      ⟨200, none, "seg1.ts"⟩ :=
  ⟨by decide, by decide⟩

/-- C5 (amended): for every /proxy request, the buffer-and-rewrite path
(with the response Content-Type forced to the HLS playlist media type) is
taken if and only if the *full target URL string* ends in the literal
suffix `.m3u8` (not the URL's path); all other responses are passed
through with body unmodified and no Content-Type override. -/
theorem c5_rewrite_iff_url_ends_m3u8 (url : String) (s : Nat) (b : String) :
    (strEnds url ".m3u8" = true →
      proxyRespond url s b =
        ⟨s, some "application/vnd.apple.mpegurl", rewritePlaylist url b⟩) ∧
    (strEnds url ".m3u8" = false →
      proxyRespond url s b = ⟨s, none, b⟩) := by
  constructor
  · intro h
    simp [proxyRespond, h]
  · intro h
    simp [proxyRespond, h]

theorem c5_witness :
    proxyRespond "https://h/x.m3u8" 200 "seg1.ts" =
      ⟨200, some "application/vnd.apple.mpegurl",
        rewritePlaylist "https://h/x.m3u8" "seg1.ts"⟩ :=
  (c5_rewrite_iff_url_ends_m3u8 "https://h/x.m3u8" 200 "seg1.ts").1 (by decide)

/-- C6 counterexample: for the present-but-unparseable `url` value
`notaurl`, the handler answers 500 `Proxy setup failed` (the `catch`
branch), not 400, while contacting no upstream. -/
theorem c6_counterexample :
    parseURL "notaurl" = none ∧
    actionStatus (proxyHandler (some "notaurl") none) = some 500 ∧
    actionStatus (proxyHandler (some "notaurl") none) ≠ some 400 :=
  ⟨by decide, by decide, by decide⟩

/-- C6 (amended): for every /proxy request whose `url` parameter is
present, non-empty, and does not parse as a valid absolute URL, the
operation returns HTTP 500 (`Proxy setup failed`) — not 400 — and
contacts no upstream.  (An empty `url` value is falsy in JavaScript and
is treated as missing, answering 400 `Missing url param`.) -/
theorem c6_invalid_url_500 (u : String) (cookie : Option String)
    (hne : u ≠ "") (hp : parseURL u = none) :
    proxyHandler (some u) cookie = .respond 500 "Proxy setup failed" := by
  have hne' : (u == "") = false := beq_eq_false_iff_ne.mpr hne
  simp [proxyHandler, hne', hp]

theorem c6_witness :
    proxyHandler (some "notaurl") none = .respond 500 "Proxy setup failed" :=
  c6_invalid_url_500 "notaurl" none (by decide) (by decide)

/-- C7 counterexample: for target URL
`https://example.com/edgenextcdn.net/seg.ts` the upstream host is
`example.com` — not the anti-bot-protected CDN — yet the outbound request
carries the overridden `Referer`/`Origin` headers, because the code tests
`targetUrl.includes("edgenextcdn.net")` on the whole URL string. -/
theorem c7_counterexample :
    proxyHandler (some "https://example.com/edgenextcdn.net/seg.ts") none =
      .fetch "https://example.com/edgenextcdn.net/seg.ts"
        ⟨"example.com", some "https://www.shahid.net/",
          some "https://www.shahid.net", none⟩ ∧
    specHostMatchesCdn "example.com" = false :=
  ⟨by decide, by decide⟩

/-- C7 (amended): for every /proxy request that reaches the upstream, the
outbound request carries the overridden `Referer` and `Origin` headers if
and only if the full target URL string contains `edgenextcdn.net` as a
substring (not: iff the upstream host matches that CDN). -/
theorem c7_antibot_iff_includes (url : String) (cookie : Option String)
    (target : String) (hdrs : ReqHeaders)
    (h : proxyHandler (some url) cookie = .fetch target hdrs) :
    hdrs.referer.isSome = strIncludes url "edgenextcdn.net" ∧
    hdrs.origin.isSome = strIncludes url "edgenextcdn.net" := by
  simp only [proxyHandler] at h
  split at h
  · exact ProxyAction.noConfusion h
  · split at h
    · exact ProxyAction.noConfusion h
    · injection h with h1 h2
      subst h2
      by_cases hi : strIncludes url "edgenextcdn.net"
      · simp [mkOptions, hi]
      · simp [mkOptions, hi]

theorem c7_witness :
    (ReqHeaders.mk "shd-gcp-live.edgenextcdn.net"
        (some "https://www.shahid.net/") (some "https://www.shahid.net")
        none).referer.isSome =
      strIncludes "https://shd-gcp-live.edgenextcdn.net/live/x.m3u8"
        "edgenextcdn.net" ∧
    (ReqHeaders.mk "shd-gcp-live.edgenextcdn.net"
        (some "https://www.shahid.net/") (some "https://www.shahid.net")
        none).origin.isSome =
      strIncludes "https://shd-gcp-live.edgenextcdn.net/live/x.m3u8"
        "edgenextcdn.net" :=
  c7_antibot_iff_includes "https://shd-gcp-live.edgenextcdn.net/live/x.m3u8"
    none "https://shd-gcp-live.edgenextcdn.net/live/x.m3u8"
    (ReqHeaders.mk "shd-gcp-live.edgenextcdn.net"
      (some "https://www.shahid.net/") (some "https://www.shahid.net") none)
    (by decide)

theorem filter_none_of_all_false (ch : String) (l : List Programme)
    (h : ∀ p ∈ l, channelMatches ch p = false) :
    l.filter (channelMatches ch) = [] := by
  induction l with
  | nil => rfl
  | cons a as ih =>
    rw [List.filter_cons, if_neg (by simp [h a (List.mem_cons_self a as)])]
    exact ih (fun p hp => h p (List.mem_cons.mpr (Or.inr hp)))

/-- C9: for every /epg request with a non-empty channel identifier and
`format=json` where no programme entry's channel equals the identifier,
the operation returns HTTP 200 with the JSON body
`{channel: <id>, programmes: []}`, not an error. -/
theorem c9_no_match_empty_json (ch : String) (progs : List Programme)
    (hch : ch ≠ "")
    (h : ∀ p ∈ progs, channelMatches ch p = false) :
    epgHandler (some ch) (some "json") (.ok (some progs)) = .jsonOk ch [] ∧
    epgStatus (epgHandler (some ch) (some "json") (.ok (some progs))) =
      200 := by
  have hch' : (ch == "") = false := beq_eq_false_iff_ne.mpr hch
  have hf : progs.filter (channelMatches ch) = [] :=
    filter_none_of_all_false ch progs h
  have he : epgHandler (some ch) (some "json") (.ok (some progs)) =
      .jsonOk ch [] := by
    simp [epgHandler, hch', hf, List.mapM.loop]
  exact ⟨he, by rw [he]; rfl⟩

theorem c9_witness :
    epgHandler (some "X") (some "json")
        (.ok (some [⟨some ["Y"], some ["20240101000000"],
          some ["20240101010000"], none, none, none⟩])) = .jsonOk "X" [] ∧
    epgStatus (epgHandler (some "X") (some "json")
        (.ok (some [⟨some ["Y"], some ["20240101000000"],
          some ["20240101010000"], none, none, none⟩]))) = 200 :=
  c9_no_match_empty_json "X"
    [⟨some ["Y"], some ["20240101000000"], some ["20240101010000"],
      none, none, none⟩]
    (by decide) (by decide)

end ProxTV


